import Mathlib

/-!
Verification of the trusted-configuration loader (`cfg.c`) of pam-u2f.

Shallow embedding: C strings become `List Char`, the `cfg_t` record becomes a
Lean structure, PAM return codes become an inductive type, and the filesystem
visible to `open_safely` becomes a finite association from component paths to
the metadata `fstat` reports on the opened descriptor.  Side effects on the
debug sink (`debug_open` / `debug_close`, whose implementation lives in
`debug.c`, outside the verified sources) are recorded as a ghost event trace
carried inside the record.  We model the production build, where the macro
`PAM_U2F_TESTING` is not defined, so the ownership checks are active.
-/

set_option autoImplicit false

/-- PAM return codes used by cfg.c (values come from the PAM headers; only
their identity matters here). -/
inductive PamRet where
  | PAM_SUCCESS
  | PAM_SERVICE_ERR
  | PAM_BUF_ERR
  | PAM_SYSTEM_ERR
deriving DecidableEq

open PamRet

/-- Shorthand turning a Lean string literal into the C-string model. -/
def lit (s : String) : List Char := s.data

/-- Modelled from the spec: the process-wide default debug sink and sinks
obtained from `debug_open(path)`; `debug.h` / `debug.c` are not among the
verified sources, which only treat the sink as an opaque handle. -/
inductive DebugHandle where
  | defaultFile
  | opened (path : List Char)
deriving DecidableEq

/-- Modelled from the spec: `DEFAULT_DEBUG_FILE` is declared in `debug.h`
(outside the verified sources); it is the process-wide default sink. -/
def DEFAULT_DEBUG_FILE : DebugHandle := DebugHandle.defaultFile

/-- Modelled from the spec: `CFG_MAX_FILE_SIZE` is defined in `cfg.h` (outside
the verified sources).  The claims only compare sizes against it, so the exact
value is immaterial; any fixed bound works. -/
def CFG_MAX_FILE_SIZE : Nat := 4096

/-- Modelled from the spec: `CFG_DEFAULT_PATH` is defined in `cfg.h` (outside
the verified sources); it is the fixed default configuration path. -/
def CFG_DEFAULT_PATH : List Char := lit "/etc/security/pam_u2f.conf"

/-- The settings record `cfg_t` (declared in `cfg.h`; field set read off from
every use in `cfg.c`).  The field defaults encode exactly the state produced
by `cfg_reset`: `memset(0)` followed by the sentinel assignments.  The extra
field `closed_sinks` is a ghost trace of the handles passed to
`debug_close`, recording the sink side effects. -/
structure cfg_t where
  max_devs : Nat := 0
  manual : Bool := false
  debug : Bool := false
  nouserok : Bool := false
  openasuser : Bool := false
  alwaysok : Bool := false
  interactive : Bool := false
  cue : Bool := false
  nodetect : Bool := false
  expand : Bool := false
  userpresence : Int := -1
  userverification : Int := -1
  pinverification : Int := -1
  auth_file : Option (List Char) := none
  authpending_file : Option (List Char) := none
  origin : Option (List Char) := none
  appid : Option (List Char) := none
  prompt : Option (List Char) := none
  cue_prompt : Option (List Char) := none
  sshformat : Bool := false
  debug_file : DebugHandle := DEFAULT_DEBUG_FILE
  defaults_buffer : Option (List Char) := none
  closed_sinks : List DebugHandle := []
deriving DecidableEq

/-- `isspace` of ctype.h restricted to the standard C locale. -/
def c_isspace (c : Char) : Bool :=
  c = ' ' || c = '\t' || c = '\n' || c = '\x0b' || c = '\x0c' || c = '\r'

/-- `ltrim` of cfg.c: skip leading whitespace. -/
def ltrim (s : List Char) : List Char := s.dropWhile c_isspace

/-- `rtrim` of cfg.c: erase trailing whitespace. -/
def rtrim (s : List Char) : List Char := (s.reverse.dropWhile c_isspace).reverse

/-- Split a char list at every occurrence of `sep` (auxiliary for the
`strtok_r` model). -/
def splitAux (sep : Char) : List Char → List Char → List (List Char)
  | [], cur => [cur.reverse]
  | c :: rest, cur =>
      if c = sep then cur.reverse :: splitAux sep rest []
      else splitAux sep rest (c :: cur)

/-- All tokens produced by repeatedly calling `strtok_r` with the single
delimiter `sep`: maximal non-empty runs of non-delimiter characters. -/
def strtok_all (sep : Char) (s : List Char) : List (List Char) :=
  (splitAux sep s []).filter (fun t => t ≠ [])

/-- Value of a digit string, most significant digit first. -/
def digitsVal (ds : List Char) : Nat :=
  ds.foldl (fun a c => a * 10 + (c.toNat - 48)) 0

/-- `sscanf(s, "%u", &x)` on the tail `s` of the argument: skip whitespace,
accept an optional sign, then require at least one digit.  `none` means the
conversion failed and no assignment happened.  For the in-range inputs the
claims use this is exact; out-of-range inputs are wrapped modulo 2^32 (the
stored object is a 32-bit `unsigned int`). -/
def scan_u (s : List Char) : Option Nat :=
  let s1 := s.dropWhile c_isspace
  let p := match s1 with
    | '-' :: t => (true, t)
    | '+' :: t => (false, t)
    | _ => (false, s1)
  let ds := p.2.takeWhile Char.isDigit
  if ds = [] then none
  else
    let n := digitsVal ds % 2 ^ 32
    some (if p.1 then (2 ^ 32 - n) % 2 ^ 32 else n)

/-- `sscanf(s, "%d", &x)`: like `scan_u` but the stored object is a signed
32-bit `int`; the value is wrapped into the signed 32-bit range. -/
def scan_d (s : List Char) : Option Int :=
  let s1 := s.dropWhile c_isspace
  let p := match s1 with
    | '-' :: t => (true, t)
    | '+' :: t => (false, t)
    | _ => (false, s1)
  let ds := p.2.takeWhile Char.isDigit
  if ds = [] then none
  else
    let v : Int := if p.1 then -(digitsVal ds : Int) else (digitsVal ds : Int)
    some ((v + 2 ^ 31) % 2 ^ 32 - 2 ^ 31)

/-- `cfg_load_arg_debug` of cfg.c: the debug-related subset of the merger.
`debug_close(cfg->debug_file)` is recorded on the ghost trace and
`debug_open(arg + 11)` yields the handle for the named path. -/
def cfg_load_arg_debug (cfg : cfg_t) (arg : List Char) : cfg_t :=
  if arg = lit "debug" then { cfg with debug := true }
  else if (lit "debug_file=").isPrefixOf arg then
    { cfg with
      closed_sinks := cfg.closed_sinks ++ [cfg.debug_file],
      debug_file := DebugHandle.opened (arg.drop 11) }
  else cfg

/-- `cfg_load_arg` of cfg.c: the full settings merger, one canonical token at
a time.  The prefix lengths (12, 13, 17, ...) are the ones hard-coded in the
source. -/
def cfg_load_arg (cfg : cfg_t) (arg : List Char) : cfg_t :=
  if (lit "max_devices=").isPrefixOf arg then
    match scan_u (arg.drop 12) with
    | some n => { cfg with max_devs := n }
    | none => cfg
  else if arg = lit "manual" then { cfg with manual := true }
  else if arg = lit "nouserok" then { cfg with nouserok := true }
  else if arg = lit "openasuser" then { cfg with openasuser := true }
  else if arg = lit "alwaysok" then { cfg with alwaysok := true }
  else if arg = lit "interactive" then { cfg with interactive := true }
  else if arg = lit "cue" then { cfg with cue := true }
  else if arg = lit "nodetect" then { cfg with nodetect := true }
  else if arg = lit "expand" then { cfg with expand := true }
  else if (lit "userpresence=").isPrefixOf arg then
    match scan_d (arg.drop 13) with
    | some n => { cfg with userpresence := n }
    | none => cfg
  else if (lit "userverification=").isPrefixOf arg then
    match scan_d (arg.drop 17) with
    | some n => { cfg with userverification := n }
    | none => cfg
  else if (lit "pinverification=").isPrefixOf arg then
    match scan_d (arg.drop 16) with
    | some n => { cfg with pinverification := n }
    | none => cfg
  else if (lit "authfile=").isPrefixOf arg then
    { cfg with auth_file := some (arg.drop 9) }
  else if arg = lit "sshformat" then { cfg with sshformat := true }
  else if (lit "authpending_file=").isPrefixOf arg then
    { cfg with authpending_file := some (arg.drop 17) }
  else if (lit "origin=").isPrefixOf arg then
    { cfg with origin := some (arg.drop 7) }
  else if (lit "appid=").isPrefixOf arg then
    { cfg with appid := some (arg.drop 6) }
  else if (lit "prompt=").isPrefixOf arg then
    { cfg with prompt := some (arg.drop 7) }
  else if (lit "cue_prompt=").isPrefixOf arg then
    { cfg with cue_prompt := some (arg.drop 11) }
  else cfg_load_arg_debug cfg arg

/-- `slurp` of cfg.c, together with a ghost trace of the `malloc` request
sizes (third component), witnessing what gets allocated.  The size guard runs
before the allocation.  With `read` on a regular file returning
`min(requested, available)` bytes per call, the read loop's net effect is to
consume `min(to_read, content.length)` bytes and stop, either because
`to_read` reached zero or because a read returned zero; an early end of data
truncates the result silently.  The model assumes the allocation itself and
the reads succeed (`PAM_BUF_ERR` / `PAM_SYSTEM_ERR` are not produced), which
is the only behaviour the claims exercise. -/
def slurp (content : List Char) (to_read : Nat) :
    PamRet × Option (List Char) × List Nat :=
  if to_read > CFG_MAX_FILE_SIZE then (PAM_SERVICE_ERR, none, [])
  else (PAM_SUCCESS, some (content.take to_read), [to_read + 1])

/-- File types as reported by `fstat` on the descriptor `open_safely` just
opened.  Since `openat` follows intermediate symlinks, a symlink to a
directory is represented by the directory metadata it resolves to; `symlink`
stands for a symbolic link reached with `O_NOFOLLOW` semantics. -/
inductive FType where
  | dir
  | regular
  | symlink
  | other
deriving DecidableEq

/-- Metadata of a filesystem node, as observed through `fstat`, plus the byte
content backing subsequent `read` calls on the descriptor.  `grpW` / `othW`
are the `S_IWGRP` / `S_IWOTH` permission bits. -/
structure Meta where
  uid : Nat
  ftype : FType
  grpW : Bool
  othW : Bool
  size : Nat
  content : List Char
deriving DecidableEq

/-- The filesystem visible to `open_safely`: a finite association from
absolute component paths (the `strtok_r` tokens of the path, in order) to the
metadata of the node living there.  The root directory itself is implicit and
always opens successfully. -/
def FS : Type := List (List (List Char) × Meta)

/-- Lookup of a component path in the filesystem. -/
def fsFind : FS → List (List Char) → Option Meta
  | [], _ => none
  | (q, m) :: rest, p => if q = p then some m else fsFind rest p

/-- Result of a single `openat` call in the model. -/
inductive OpenRes where
  | enoent
  | eother
  | ok (m : Meta)
deriving DecidableEq

/-- `openat(parent_fd, p, O_RDONLY|O_CLOEXEC|O_DIRECTORY, 0)`: fails with
`ENOENT` when the node is missing, with another errno (`ENOTDIR`) when the
node does not resolve to a directory. -/
def openat_dir (fs : FS) (p : List (List Char)) : OpenRes :=
  match fsFind fs p with
  | none => OpenRes.enoent
  | some m => if m.ftype = FType.dir then OpenRes.ok m else OpenRes.eother

/-- `openat(parent_fd, p, O_RDONLY|O_CLOEXEC|O_NOCTTY|O_NOFOLLOW, 0)`: fails
with `ENOENT` when the node is missing and with `ELOOP` (another errno) when
the node is a symbolic link. -/
def openat_nofollow (fs : FS) (p : List (List Char)) : OpenRes :=
  match fsFind fs p with
  | none => OpenRes.enoent
  | some m => if m.ftype = FType.symlink then OpenRes.eother else OpenRes.ok m

/-- Outcome of `open_safely`: `err c` for a non-success return, `absent` for
the success case with `*outfd = -1, *outsize = 0`, and `opened m` for the
success case returning a descriptor for the node `m` with
`*outsize = m.size`. -/
inductive SORes where
  | err (c : PamRet)
  | absent
  | opened (m : Meta)
deriving DecidableEq

/-- The component walk of `open_safely`: `done` is the component path of the
directory `parent_fd` refers to, `p` the component about to be opened, `rest`
the components still in the tokenizer.  Each intermediate component is opened
directory-only, then its metadata is checked on the open descriptor: owner
root, directory or symlink, not group- or other-writable.  The last component
is opened no-follow and must be a regular root-owned file that is not group-
or other-writable.  `ENOENT` anywhere yields `absent`. -/
def walk_dirs (fs : FS) : List (List Char) → List Char → List (List Char) → SORes
  | done, p, [] =>
      match openat_nofollow fs (done ++ [p]) with
      | OpenRes.enoent => SORes.absent
      | OpenRes.eother => SORes.err PAM_SERVICE_ERR
      | OpenRes.ok m =>
          if m.uid = 0 ∧ m.ftype = FType.regular ∧ m.grpW = false ∧ m.othW = false
          then SORes.opened m
          else SORes.err PAM_SERVICE_ERR
  | done, p, c :: rest =>
      match openat_dir fs (done ++ [p]) with
      | OpenRes.enoent => SORes.absent
      | OpenRes.eother => SORes.err PAM_SERVICE_ERR
      | OpenRes.ok m =>
          if m.uid = 0 ∧ (m.ftype = FType.dir ∨ m.ftype = FType.symlink)
             ∧ m.grpW = false ∧ m.othW = false
          then walk_dirs fs (done ++ [p]) c rest
          else SORes.err PAM_SERVICE_ERR

/-- `open_safely` of cfg.c.  The path must be non-empty, absolute and must not
end in a separator; it is then tokenized on '/' and walked component by
component from the root. -/
def open_safely (fs : FS) (path : List Char) : SORes :=
  if path = [] ∨ path.head? ≠ some '/' ∨ path.getLast? = some '/' then
    SORes.err PAM_SERVICE_ERR
  else
    match strtok_all '/' path with
    | [] => SORes.err PAM_SERVICE_ERR
    | p :: rest => walk_dirs fs [] p rest

/-- `pack` of cfg.c: truncate at the first '#', left-trim, and if a '=' is
present split at its first occurrence, right-trim the key, trim the value and
rejoin; otherwise right-trim the remainder.  (The C function returns the
canonical token in place; it never actually returns NULL.) -/
def pack (s : List Char) : List Char :=
  let s0 := s.takeWhile (fun c => c ≠ '#')
  let s1 := ltrim s0
  if s1.any (fun c => c = '=') then
    let k := s1.takeWhile (fun c => c ≠ '=')
    let v := (s1.dropWhile (fun c => c ≠ '=')).tail
    rtrim k ++ '=' :: ltrim (rtrim v)
  else rtrim s1

/-- `cfg_load_buffer` of cfg.c: tokenize the buffer on newlines, pack each
line and feed every non-empty token to the merger. -/
def cfg_load_buffer (cfg : cfg_t) (buffer : List Char) : cfg_t :=
  (strtok_all '\n' buffer).foldl
    (fun c line =>
      let arg := pack line
      if arg = [] then c else cfg_load_arg c arg)
    cfg

/-- `cfg_load_defaults` of cfg.c: open the configuration file safely; only the
default path may be missing; an empty file is accepted with no effect;
otherwise read it whole, merge its lines and retain the buffer inside the
record. -/
def cfg_load_defaults (fs : FS) (cfg : cfg_t) (config_path : Option (List Char)) :
    PamRet × cfg_t :=
  match open_safely fs (config_path.getD CFG_DEFAULT_PATH) with
  | SORes.err e => (e, cfg)
  | SORes.absent =>
      match config_path with
      | some _ => (PAM_SERVICE_ERR, cfg)
      | none => (PAM_SUCCESS, cfg)
  | SORes.opened m =>
      if m.size = 0 then (PAM_SUCCESS, cfg)
      else
        match slurp m.content m.size with
        | (PAM_SUCCESS, some buffer, _) =>
            (PAM_SUCCESS, { cfg_load_buffer cfg buffer with defaults_buffer := some buffer })
        | (e, _, _) => (e, cfg)

/-- `cfg_reset` of cfg.c: `memset(cfg, 0, sizeof(cfg_t))` followed by the
sentinel assignments; the result does not depend on the previous contents.
The structure defaults of `cfg_t` are exactly this state. -/
def cfg_reset (_cfg : cfg_t) : cfg_t := {}

/-- `cfg_free` of cfg.c: `debug_close(cfg->debug_file)` (recorded on the ghost
trace), `free(cfg->defaults_buffer)`, then `cfg_reset(cfg)`. -/
def cfg_free (cfg : cfg_t) : cfg_t :=
  cfg_reset
    { cfg with
      closed_sinks := cfg.closed_sinks ++ [cfg.debug_file],
      defaults_buffer := none }

/-- The first `argv` loop of `cfg_init`: remember the last `conf=` payload and
apply the debug-related merger subset to every other argument. -/
def early_scan (args : List (List Char)) (cfg : cfg_t) :
    cfg_t × Option (List Char) :=
  args.foldl
    (fun st arg =>
      if (lit "conf=").isPrefixOf arg then (st.1, some (arg.drop 5))
      else (cfg_load_arg_debug st.1 arg, st.2))
    (cfg, none)

/-- The second `argv` loop of `cfg_init`: skip `conf=` arguments and apply the
full merger to every other argument. -/
def full_scan (args : List (List Char)) (cfg : cfg_t) : cfg_t :=
  args.foldl
    (fun c arg => if (lit "conf=").isPrefixOf arg then c else cfg_load_arg c arg)
    cfg

/-- `cfg_init` of cfg.c: reset, early argument scan, file load, and on success
the full argument scan; on failure the record is released with `cfg_free`.
(The debug-print block at the `exit` label does not modify the record.)  The
`flags` parameter is unused, as in the source. -/
def cfg_init (fs : FS) (cfg : cfg_t) (flags : Int) (args : List (List Char)) :
    PamRet × cfg_t :=
  let _ := flags
  let st := early_scan args (cfg_reset cfg)
  let rc := cfg_load_defaults fs st.1 st.2
  if rc.1 = PAM_SUCCESS then (rc.1, full_scan args rc.2)
  else (rc.1, cfg_free rc.2)

/-- The trust predicate `open_safely` enforces on every intermediate path
element: owned by root, a directory or a symlink, and neither group- nor
other-writable. -/
def trustDir (m : Meta) : Prop :=
  m.uid = 0 ∧ (m.ftype = FType.dir ∨ m.ftype = FType.symlink)
  ∧ m.grpW = false ∧ m.othW = false

/-- The trust predicate `open_safely` enforces on the terminal path element:
owned by root, a regular file, and neither group- nor other-writable. -/
def trustFile (m : Meta) : Prop :=
  m.uid = 0 ∧ m.ftype = FType.regular ∧ m.grpW = false ∧ m.othW = false

/-- The component path of `path`, as tokenized by `open_safely`. -/
def components (path : List Char) : List (List Char) :=
  strtok_all '/' path

/-- The payload of the last `conf=` entry of an argument list, if any: the
value `cfg_init`'s early scan leaves in `config_path`. -/
def lastConf : List (List Char) → Option (List Char)
  | [] => none
  | a :: rest =>
      match lastConf rest with
      | some x => some x
      | none => if (lit "conf=").isPrefixOf a then some (a.drop 5) else none

/-- The set of tokens `cfg_load_arg` recognizes (including the debug subset
it delegates to `cfg_load_arg_debug`). -/
def arg_recognized (arg : List Char) : Bool :=
  (lit "max_devices=").isPrefixOf arg
  || (arg == lit "manual") || (arg == lit "nouserok") || (arg == lit "openasuser")
  || (arg == lit "alwaysok") || (arg == lit "interactive") || (arg == lit "cue")
  || (arg == lit "nodetect") || (arg == lit "expand")
  || (lit "userpresence=").isPrefixOf arg
  || (lit "userverification=").isPrefixOf arg
  || (lit "pinverification=").isPrefixOf arg
  || (lit "authfile=").isPrefixOf arg
  || (arg == lit "sshformat")
  || (lit "authpending_file=").isPrefixOf arg
  || (lit "origin=").isPrefixOf arg
  || (lit "appid=").isPrefixOf arg
  || (lit "prompt=").isPrefixOf arg
  || (lit "cue_prompt=").isPrefixOf arg
  || (arg == lit "debug")
  || (lit "debug_file=").isPrefixOf arg

/-- The canonical tokens `cfg_load_buffer` feeds to the merger for a given
buffer: every line of the buffer, packed, with the empty tokens skipped. -/
def buffer_args (b : List Char) : List (List Char) :=
  ((strtok_all '\n' b).map pack).filter (fun a => a ≠ [])

/-- The canonical tokens `cfg_load_defaults` feeds to the merger for a given
filesystem and configuration path: the packed lines of the file it reads, or
nothing when no content is applied. -/
def defaults_args (fs : FS) (p : Option (List Char)) : List (List Char) :=
  match open_safely fs (p.getD CFG_DEFAULT_PATH) with
  | SORes.opened m =>
      if m.size = 0 then []
      else
        match slurp m.content m.size with
        | (PAM_SUCCESS, some buffer, _) => buffer_args buffer
        | _ => []
  | _ => []

/-- The tokens `cfg_init` applies to the record, in order: the early scan
feeds every non-`conf=` argument to the debug-subset merger, the file load
feeds the packed file lines, and the full scan feeds every non-`conf=`
argument again. -/
def init_args (fs : FS) (args : List (List Char)) : List (List Char) :=
  (args.filter fun a => !(lit "conf=").isPrefixOf a)
    ++ defaults_args fs (lastConf args)
    ++ (args.filter fun a => !(lit "conf=").isPrefixOf a)

/-- Among the tokens actually applied to a record, some token carries the
given recognized key (checked as the merger checks it, by prefix) and its
value converts under `%d` to exactly `v`: the value was explicitly assigned
by a recognized token. -/
def tri_assigned (toks : List (List Char)) (key : List Char) (n : Nat) (v : Int) : Prop :=
  ∃ arg, arg ∈ toks ∧ key.isPrefixOf arg = true ∧ scan_d (arg.drop n) = some v

/-- Each tri-state field of the record is the sentinel −1 installed by reset,
or was explicitly assigned by one of the tokens in `toks` — the tokens that
were actually applied to this record — carrying that field's key. -/
def TriSeen (toks : List (List Char)) (c : cfg_t) : Prop :=
  (c.userpresence = -1 ∨ tri_assigned toks (lit "userpresence=") 13 c.userpresence)
  ∧ (c.userverification = -1 ∨ tri_assigned toks (lit "userverification=") 17 c.userverification)
  ∧ (c.pinverification = -1 ∨ tri_assigned toks (lit "pinverification=") 16 c.pinverification)

/-- The records producible by the operations of cfg.c, starting from a reset
record, indexed by the exact list of canonical tokens the operations fed to
the merger on the way: every observation point of the module lies on such a
record. -/
inductive ReachT : cfg_t → List (List Char) → Prop where
  | reset (c : cfg_t) : ReachT (cfg_reset c) []
  | load_arg (c : cfg_t) (toks : List (List Char)) (arg : List Char) :
      ReachT c toks → ReachT (cfg_load_arg c arg) (toks ++ [arg])
  | load_arg_debug (c : cfg_t) (toks : List (List Char)) (arg : List Char) :
      ReachT c toks → ReachT (cfg_load_arg_debug c arg) (toks ++ [arg])
  | load_buffer (c : cfg_t) (toks : List (List Char)) (b : List Char) :
      ReachT c toks → ReachT (cfg_load_buffer c b) (toks ++ buffer_args b)
  | load_defaults (fs : FS) (c : cfg_t) (toks : List (List Char))
      (p : Option (List Char)) :
      ReachT c toks → ReachT (cfg_load_defaults fs c p).2 (toks ++ defaults_args fs p)
  | init (fs : FS) (c : cfg_t) (fl : Int) (args : List (List Char)) :
      ReachT (cfg_init fs c fl args).2 (init_args fs args)
  | free (c : cfg_t) (toks : List (List Char)) : ReachT c toks → ReachT (cfg_free c) []

/-- Metadata of a trusted root-owned directory, used by concrete examples. -/
def dirMeta : Meta :=
  { uid := 0, ftype := FType.dir, grpW := false, othW := false, size := 0, content := [] }

/-- Metadata of a trusted root-owned regular file with the given content. -/
def fileMeta (s : String) : Meta :=
  { uid := 0, ftype := FType.regular, grpW := false, othW := false,
    size := s.length, content := s.data }

/-- A concrete filesystem carrying the spec's example configuration file at
the default path. -/
def demoFS : FS :=
  [([lit "etc"], dirMeta),
   ([lit "etc", lit "security"], dirMeta),
   ([lit "etc", lit "security", lit "pam_u2f.conf"], fileMeta "debug\nmax_devices=5\n")]

/-- A concrete filesystem whose only entry is a group-writable directory
`/a` containing a perfectly trusted file `/a/b`. -/
def badFS : FS :=
  [([lit "a"],
    { uid := 0, ftype := FType.dir, grpW := true, othW := false, size := 0, content := [] }),
   ([lit "a", lit "b"], fileMeta "x")]

theorem isPrefixOf_append_self (p v : List Char) : p.isPrefixOf (p ++ v) = true := by
  induction p with
  | nil => cases v <;> simp [List.isPrefixOf]
  | cons a as ih => simp [List.isPrefixOf, ih]

theorem takeWhile_all_of {p : Char → Bool} :
    ∀ l : List Char, (∀ a ∈ l, p a = true) → l.takeWhile p = l
  | [], _ => rfl
  | a :: as, h => by
      rw [List.takeWhile_cons, if_pos (h a (List.mem_cons_self a as))]
      exact congrArg (a :: ·) (takeWhile_all_of as fun b hb => h b (List.mem_cons_of_mem a hb))

theorem ltrim_append_cons (x : Char) (hx : c_isspace x = false) :
    ∀ k v : List Char, ltrim (k ++ x :: v) = ltrim k ++ x :: v := by
  intro k v
  induction k with
  | nil => simp [ltrim, List.dropWhile_cons, hx]
  | cons a as ih =>
      by_cases ha : c_isspace a = true
      · simpa only [ltrim, List.cons_append, List.dropWhile_cons, ha, if_pos] using ih
      · simp only [Bool.not_eq_true] at ha
        simp only [ltrim, List.cons_append, List.dropWhile_cons, ha]
        simp

theorem takeWhile_ne_append (x : Char) :
    ∀ l v : List Char, x ∉ l →
      (l ++ x :: v).takeWhile (fun c => c ≠ x) = l
  | [], v, _ => by
      rw [List.nil_append, List.takeWhile_cons]
      simp
  | a :: as, v, h => by
      have ha : a ≠ x := fun e => h (e ▸ List.mem_cons_self a as)
      rw [List.cons_append, List.takeWhile_cons, if_pos (decide_eq_true ha)]
      exact congrArg (a :: ·)
        (takeWhile_ne_append x as v fun hb => h (List.mem_cons_of_mem a hb))

theorem dropWhile_ne_append (x : Char) :
    ∀ l v : List Char, x ∉ l →
      (l ++ x :: v).dropWhile (fun c => c ≠ x) = x :: v
  | [], v, _ => by
      rw [List.nil_append, List.dropWhile_cons]
      simp
  | a :: as, v, h => by
      have ha : a ≠ x := fun e => h (e ▸ List.mem_cons_self a as)
      rw [List.cons_append, List.dropWhile_cons, if_pos (decide_eq_true ha)]
      exact dropWhile_ne_append x as v fun hb => h (List.mem_cons_of_mem a hb)

/-- Claim C5: a reported size above `CFG_MAX_FILE_SIZE` makes `slurp` fail
with the fatal error return, and the allocation trace stays empty: the guard
fires before any full-size buffer is allocated. -/
theorem slurp_size_guard (content : List Char) (to_read : Nat)
    (h : to_read > CFG_MAX_FILE_SIZE) :
    slurp content to_read = (PAM_SERVICE_ERR, none, []) := by
  simp [slurp, h]

theorem slurp_size_guard_witness :
    CFG_MAX_FILE_SIZE + 1 > CFG_MAX_FILE_SIZE
    ∧ slurp [] (CFG_MAX_FILE_SIZE + 1) = (PAM_SERVICE_ERR, none, []) :=
  ⟨by decide, slurp_size_guard [] (CFG_MAX_FILE_SIZE + 1) (by decide)⟩

/-- Claim C6: the line normalizer truncates at the first '#', trims
whitespace, splits a line containing '=' once at its first occurrence, trims
both sides independently and rejoins them as key=value; in particular the
three example lines normalize as the spec states (the comment-only line packs
to the empty token, which the buffer loader skips). -/
theorem pack_canonical :
    pack (lit "  foo  =  bar  # note") = lit "foo=bar"
    ∧ pack (lit "baz") = lit "baz"
    ∧ pack (lit "# only a comment") = lit ""
    ∧ (∀ s : List Char, pack s = pack (s.takeWhile (fun c => c ≠ '#')))
    ∧ (∀ k v : List Char, '#' ∉ k → '#' ∉ v → '=' ∉ k →
        pack (k ++ '=' :: v) = rtrim (ltrim k) ++ '=' :: ltrim (rtrim v)) := by
  refine ⟨by decide, by decide, by decide, ?_, ?_⟩
  · intro s
    show pack s = pack (s.takeWhile fun c => c ≠ '#')
    unfold pack
    rw [List.takeWhile_idem]
  · intro k v h1 h2 h3
    have hall : ∀ a ∈ k ++ '=' :: v, (fun c => (c ≠ '#' : Bool)) a = true := by
      intro a ha
      rcases List.mem_append.mp ha with hk | hv
      · exact decide_eq_true fun e => h1 (by rwa [e] at hk)
      · rcases List.mem_cons.mp hv with he | hv'
        · exact decide_eq_true (by rw [he]; decide)
        · exact decide_eq_true fun e => h2 (by rwa [e] at hv')
    have hnsp : c_isspace '=' = false := by decide
    have hmem : '=' ∉ ltrim k := fun hm => h3 ((List.dropWhile_sublist c_isspace).mem hm)
    have hany : ((ltrim k ++ '=' :: v).any fun c => c = '=') = true := by
      simp only [List.any_eq_true]
      exact ⟨'=', by simp, by simp⟩
    simp only [pack]
    rw [takeWhile_all_of _ hall, ltrim_append_cons '=' hnsp k v]
    rw [if_pos hany, takeWhile_ne_append '=' (ltrim k) v hmem,
        dropWhile_ne_append '=' (ltrim k) v hmem]
    rfl

theorem pack_canonical_witness :
    '#' ∉ lit " fo o " ∧ '#' ∉ lit " b ar " ∧ '=' ∉ lit " fo o "
    ∧ pack (lit " fo o " ++ '=' :: lit " b ar ")
        = rtrim (ltrim (lit " fo o ")) ++ '=' :: ltrim (rtrim (lit " b ar ")) :=
  ⟨by decide, by decide, by decide,
   pack_canonical.2.2.2.2 (lit " fo o ") (lit " b ar ")
     (by decide) (by decide) (by decide)⟩

/-- Claim C8: a reset record carries the process-wide default debug sink, and
every `debug_file=` token replaces the sink exactly once, closing the prior
sink (one close event appended to the trace) before installing the handle
opened for the named path; the full merger delegates such tokens to the
debug-subset merger unchanged. -/
theorem debug_sink_lifecycle (c cfg : cfg_t) (p : List Char) :
    (cfg_reset c).debug_file = DEFAULT_DEBUG_FILE
    ∧ cfg_load_arg_debug cfg (lit "debug_file=" ++ p)
        = { cfg with closed_sinks := cfg.closed_sinks ++ [cfg.debug_file],
                     debug_file := DebugHandle.opened p }
    ∧ cfg_load_arg cfg (lit "debug_file=" ++ p)
        = cfg_load_arg_debug cfg (lit "debug_file=" ++ p) := by
  refine ⟨rfl, ?_, rfl⟩
  unfold cfg_load_arg_debug
  rw [if_neg (of_decide_eq_false
        (show decide (lit "debug_file=" ++ p = lit "debug") = false from rfl)),
      if_pos (isPrefixOf_append_self (lit "debug_file=") p)]
  rfl

/-- Claim C3: when the secure open reports the configuration path absent, an
administrator-specified path makes `cfg_load_defaults` fail with the security
error while the default path makes it succeed, in both cases leaving the
record untouched. -/
theorem cfg_load_defaults_missing_path (fs : FS) (cfg : cfg_t) (path : List Char)
    (hex : open_safely fs path = SORes.absent)
    (hdef : open_safely fs CFG_DEFAULT_PATH = SORes.absent) :
    cfg_load_defaults fs cfg (some path) = (PAM_SERVICE_ERR, cfg)
    ∧ cfg_load_defaults fs cfg none = (PAM_SUCCESS, cfg) := by
  constructor <;> simp [cfg_load_defaults, hex, hdef]

/-- Claim C7: a token with an unrecognized key leaves the record unchanged,
and for each recognized numeric key (max_devices, userpresence,
userverification, pinverification) a value on which the numeric conversion
fails also leaves the record unchanged; no error is reported in either
case (the merger returns no status at all). -/
theorem cfg_load_arg_silent_noop :
    (∀ (cfg : cfg_t) (arg : List Char), arg_recognized arg = false →
      cfg_load_arg cfg arg = cfg)
    ∧ (∀ (cfg : cfg_t) (v : List Char), scan_u v = none →
      cfg_load_arg cfg (lit "max_devices=" ++ v) = cfg)
    ∧ (∀ (cfg : cfg_t) (v : List Char), scan_d v = none →
      cfg_load_arg cfg (lit "userpresence=" ++ v) = cfg)
    ∧ (∀ (cfg : cfg_t) (v : List Char), scan_d v = none →
      cfg_load_arg cfg (lit "userverification=" ++ v) = cfg)
    ∧ (∀ (cfg : cfg_t) (v : List Char), scan_d v = none →
      cfg_load_arg cfg (lit "pinverification=" ++ v) = cfg) := by
  refine ⟨?_, ?_, ?_, ?_, ?_⟩
  · intro cfg arg h
    simp only [arg_recognized, Bool.or_eq_false_iff, beq_eq_false_iff_ne, ne_eq] at h
    obtain ⟨⟨⟨⟨⟨⟨⟨⟨⟨⟨⟨⟨⟨⟨⟨⟨⟨⟨⟨⟨h1, h2⟩, h3⟩, h4⟩, h5⟩, h6⟩, h7⟩, h8⟩, h9⟩, h10⟩,
      h11⟩, h12⟩, h13⟩, h14⟩, h15⟩, h16⟩, h17⟩, h18⟩, h19⟩, h20⟩, h21⟩ := h
    simp [cfg_load_arg, cfg_load_arg_debug, h1, h2, h3, h4, h5, h6, h7, h8, h9, h10,
          h11, h12, h13, h14, h15, h16, h17, h18, h19, h20, h21]
  · intro cfg v h
    simp only [cfg_load_arg, isPrefixOf_append_self,
      show (lit "max_devices=" ++ v).drop 12 = v from rfl, h, if_true]
  · intro cfg v h
    simp only [cfg_load_arg,
      show ((lit "max_devices=").isPrefixOf (lit "userpresence=" ++ v)) = false from rfl,
      eq_false (of_decide_eq_false
        (show decide (lit "userpresence=" ++ v = lit "manual") = false from rfl)),
      eq_false (of_decide_eq_false
        (show decide (lit "userpresence=" ++ v = lit "nouserok") = false from rfl)),
      eq_false (of_decide_eq_false
        (show decide (lit "userpresence=" ++ v = lit "openasuser") = false from rfl)),
      eq_false (of_decide_eq_false
        (show decide (lit "userpresence=" ++ v = lit "alwaysok") = false from rfl)),
      eq_false (of_decide_eq_false
        (show decide (lit "userpresence=" ++ v = lit "interactive") = false from rfl)),
      eq_false (of_decide_eq_false
        (show decide (lit "userpresence=" ++ v = lit "cue") = false from rfl)),
      eq_false (of_decide_eq_false
        (show decide (lit "userpresence=" ++ v = lit "nodetect") = false from rfl)),
      eq_false (of_decide_eq_false
        (show decide (lit "userpresence=" ++ v = lit "expand") = false from rfl)),
      isPrefixOf_append_self,
      show (lit "userpresence=" ++ v).drop 13 = v from rfl,
      h, Bool.false_eq_true, if_false, if_true]
  · intro cfg v h
    simp only [cfg_load_arg,
      show ((lit "max_devices=").isPrefixOf (lit "userverification=" ++ v)) = false from rfl,
      eq_false (of_decide_eq_false
        (show decide (lit "userverification=" ++ v = lit "manual") = false from rfl)),
      eq_false (of_decide_eq_false
        (show decide (lit "userverification=" ++ v = lit "nouserok") = false from rfl)),
      eq_false (of_decide_eq_false
        (show decide (lit "userverification=" ++ v = lit "openasuser") = false from rfl)),
      eq_false (of_decide_eq_false
        (show decide (lit "userverification=" ++ v = lit "alwaysok") = false from rfl)),
      eq_false (of_decide_eq_false
        (show decide (lit "userverification=" ++ v = lit "interactive") = false from rfl)),
      eq_false (of_decide_eq_false
        (show decide (lit "userverification=" ++ v = lit "cue") = false from rfl)),
      eq_false (of_decide_eq_false
        (show decide (lit "userverification=" ++ v = lit "nodetect") = false from rfl)),
      eq_false (of_decide_eq_false
        (show decide (lit "userverification=" ++ v = lit "expand") = false from rfl)),
      show ((lit "userpresence=").isPrefixOf (lit "userverification=" ++ v)) = false from rfl,
      isPrefixOf_append_self,
      show (lit "userverification=" ++ v).drop 17 = v from rfl,
      h, Bool.false_eq_true, if_false, if_true]
  · intro cfg v h
    simp only [cfg_load_arg,
      show ((lit "max_devices=").isPrefixOf (lit "pinverification=" ++ v)) = false from rfl,
      eq_false (of_decide_eq_false
        (show decide (lit "pinverification=" ++ v = lit "manual") = false from rfl)),
      eq_false (of_decide_eq_false
        (show decide (lit "pinverification=" ++ v = lit "nouserok") = false from rfl)),
      eq_false (of_decide_eq_false
        (show decide (lit "pinverification=" ++ v = lit "openasuser") = false from rfl)),
      eq_false (of_decide_eq_false
        (show decide (lit "pinverification=" ++ v = lit "alwaysok") = false from rfl)),
      eq_false (of_decide_eq_false
        (show decide (lit "pinverification=" ++ v = lit "interactive") = false from rfl)),
      eq_false (of_decide_eq_false
        (show decide (lit "pinverification=" ++ v = lit "cue") = false from rfl)),
      eq_false (of_decide_eq_false
        (show decide (lit "pinverification=" ++ v = lit "nodetect") = false from rfl)),
      eq_false (of_decide_eq_false
        (show decide (lit "pinverification=" ++ v = lit "expand") = false from rfl)),
      show ((lit "userpresence=").isPrefixOf (lit "pinverification=" ++ v)) = false from rfl,
      show ((lit "userverification=").isPrefixOf (lit "pinverification=" ++ v)) = false from rfl,
      isPrefixOf_append_self,
      show (lit "pinverification=" ++ v).drop 16 = v from rfl,
      h, Bool.false_eq_true, if_false, if_true]

theorem cfg_load_arg_silent_noop_witness :
    arg_recognized (lit "frobnicate") = false
    ∧ scan_u (lit "zzz") = none
    ∧ scan_d (lit "zzz") = none
    ∧ cfg_load_arg {} (lit "frobnicate") = {}
    ∧ cfg_load_arg {} (lit "max_devices=" ++ lit "zzz") = {}
    ∧ cfg_load_arg {} (lit "userpresence=" ++ lit "zzz") = {}
    ∧ cfg_load_arg {} (lit "userverification=" ++ lit "zzz") = {}
    ∧ cfg_load_arg {} (lit "pinverification=" ++ lit "zzz") = {} :=
  ⟨by decide, by decide, by decide,
   cfg_load_arg_silent_noop.1 {} (lit "frobnicate") (by decide),
   cfg_load_arg_silent_noop.2.1 {} (lit "zzz") (by decide),
   cfg_load_arg_silent_noop.2.2.1 {} (lit "zzz") (by decide),
   cfg_load_arg_silent_noop.2.2.2.1 {} (lit "zzz") (by decide),
   cfg_load_arg_silent_noop.2.2.2.2 {} (lit "zzz") (by decide)⟩

theorem cfg_load_defaults_missing_path_witness :
    open_safely ([] : FS) (lit "/nope/x") = SORes.absent
    ∧ open_safely ([] : FS) CFG_DEFAULT_PATH = SORes.absent
    ∧ cfg_load_defaults [] {} (some (lit "/nope/x")) = (PAM_SERVICE_ERR, {})
    ∧ cfg_load_defaults [] {} none = (PAM_SUCCESS, {}) :=
  ⟨by decide, by decide,
   (cfg_load_defaults_missing_path [] {} (lit "/nope/x") (by decide) (by decide)).1,
   (cfg_load_defaults_missing_path [] {} (lit "/nope/x") (by decide) (by decide)).2⟩

theorem early_scan_snd_eq :
    ∀ (args : List (List Char)) (c0 : cfg_t) (p0 : Option (List Char)),
      (args.foldl
        (fun st arg =>
          if (lit "conf=").isPrefixOf arg then (st.1, some (arg.drop 5))
          else (cfg_load_arg_debug st.1 arg, st.2))
        (c0, p0)).2
      = match lastConf args with
        | some x => some x
        | none => p0 := by
  intro args
  induction args with
  | nil => intro c0 p0; rfl
  | cons a rest ih =>
      intro c0 p0
      by_cases hc : ((lit "conf=").isPrefixOf a) = true
      · simp only [List.foldl_cons, if_pos hc, ih, lastConf]
        cases lastConf rest <;> simp [hc]
      · simp only [Bool.not_eq_true] at hc
        simp only [List.foldl_cons, hc, Bool.false_eq_true, if_false, ih, lastConf]
        cases lastConf rest <;> simp [hc]

theorem early_scan_fst_eq :
    ∀ (args : List (List Char)) (c0 : cfg_t) (p0 : Option (List Char)),
      (args.foldl
        (fun st arg =>
          if (lit "conf=").isPrefixOf arg then (st.1, some (arg.drop 5))
          else (cfg_load_arg_debug st.1 arg, st.2))
        (c0, p0)).1
      = (args.filter fun a => !(lit "conf=").isPrefixOf a).foldl cfg_load_arg_debug c0 := by
  intro args
  induction args with
  | nil => intro c0 p0; rfl
  | cons a rest ih =>
      intro c0 p0
      by_cases hc : ((lit "conf=").isPrefixOf a) = true
      · simp only [List.foldl_cons, hc, if_true, ih, List.filter_cons,
          Bool.not_true, Bool.false_eq_true, if_false]
      · simp only [Bool.not_eq_true] at hc
        simp only [List.foldl_cons, hc, Bool.false_eq_true, if_false, ih,
          List.filter_cons, Bool.not_false, if_true]

theorem full_scan_filter_eq :
    ∀ (args : List (List Char)) (c0 : cfg_t),
      full_scan args c0
      = (args.filter fun a => !(lit "conf=").isPrefixOf a).foldl cfg_load_arg c0 := by
  intro args
  induction args with
  | nil => intro c0; rfl
  | cons a rest ih =>
      intro c0
      by_cases hc : ((lit "conf=").isPrefixOf a) = true
      · simp only [full_scan, List.foldl_cons, if_pos hc, List.filter_cons, hc,
          Bool.not_true, Bool.false_eq_true, if_false]
        exact ih c0
      · simp only [Bool.not_eq_true] at hc
        simp only [full_scan, List.foldl_cons, hc, Bool.false_eq_true, if_false,
          List.filter_cons, Bool.not_false, if_true]
        exact ih (cfg_load_arg c0 a)

/-- Claim C10: the early scan leaves in `config_path` exactly the payload of
the last `conf=` entry of the argument list, so the file-load phase uses that
path; `conf=` entries themselves never touch the record, in either argument
scan. -/
theorem conf_last_wins (args : List (List Char)) (cfg : cfg_t) :
    (early_scan args cfg).2 = lastConf args
    ∧ (early_scan args cfg).1
        = (args.filter fun a => !(lit "conf=").isPrefixOf a).foldl cfg_load_arg_debug cfg
    ∧ full_scan args cfg
        = (args.filter fun a => !(lit "conf=").isPrefixOf a).foldl cfg_load_arg cfg := by
  refine ⟨?_, early_scan_fst_eq args cfg none, full_scan_filter_eq args cfg⟩
  rw [early_scan, early_scan_snd_eq args cfg none]
  cases lastConf args <;> rfl

/-- Claim C2: on success `cfg_init` returns exactly the record obtained by
re-applying the full merger to every non-`conf=` invocation argument after
the file contents were merged, so invocation arguments always override
file-provided values; on the spec's example (file `"debug\nmax_devices=5\n"`
at the default path, arguments `["max_devices=3"]`) the final record has
debug true and max_devices 3. -/
theorem cfg_init_args_override (fs : FS) (cfg : cfg_t) (fl : Int)
    (args : List (List Char)) (c : cfg_t)
    (h : cfg_init fs cfg fl args = (PAM_SUCCESS, c)) :
    c = full_scan args
          (cfg_load_defaults fs (early_scan args (cfg_reset cfg)).1
            (early_scan args (cfg_reset cfg)).2).2
    ∧ (cfg_init demoFS {} 0 [lit "max_devices=3"]).2.debug = true
    ∧ (cfg_init demoFS {} 0 [lit "max_devices=3"]).2.max_devs = 3 := by
  refine ⟨?_, by decide, by decide⟩
  simp only [cfg_init] at h
  split at h
  · injection h with h1 h2
    exact h2.symm
  · next hcond =>
      injection h with h1 h2
      exact absurd h1 hcond

theorem cfg_init_args_override_witness :
    cfg_init demoFS {} 0 [lit "max_devices=3"]
      = (PAM_SUCCESS, (cfg_init demoFS {} 0 [lit "max_devices=3"]).2)
    ∧ (cfg_init demoFS {} 0 [lit "max_devices=3"]).2
        = full_scan [lit "max_devices=3"]
            (cfg_load_defaults demoFS
              (early_scan [lit "max_devices=3"] (cfg_reset {})).1
              (early_scan [lit "max_devices=3"] (cfg_reset {})).2).2
    ∧ (cfg_init demoFS {} 0 [lit "max_devices=3"]).2.debug = true
    ∧ (cfg_init demoFS {} 0 [lit "max_devices=3"]).2.max_devs = 3 :=
  ⟨by decide,
   (cfg_init_args_override demoFS {} 0 [lit "max_devices=3"]
     (cfg_init demoFS {} 0 [lit "max_devices=3"]).2 (by decide)).1,
   (cfg_init_args_override demoFS {} 0 [lit "max_devices=3"]
     (cfg_init demoFS {} 0 [lit "max_devices=3"]).2 (by decide)).2.1,
   (cfg_init_args_override demoFS {} 0 [lit "max_devices=3"]
     (cfg_init demoFS {} 0 [lit "max_devices=3"]).2 (by decide)).2.2⟩

/-- Claim C4: when `cfg_init` returns a non-success status the record it
hands back has been released: it is in the zero/sentinel reset state, with
the debug sink back at the process-wide default and no retained buffer; and
`cfg_free` always resets the record, closing the sink and dropping the
buffer, so releasing an already-released or never-populated record is safe
and idempotent. -/
theorem cfg_init_failure_release (fs : FS) (cfg : cfg_t) (fl : Int)
    (args : List (List Char)) (r : PamRet) (c : cfg_t)
    (h : cfg_init fs cfg fl args = (r, c)) (hr : r ≠ PAM_SUCCESS) :
    c = cfg_reset c
    ∧ (∀ d : cfg_t, cfg_free d = cfg_reset d)
    ∧ (∀ d : cfg_t, cfg_free (cfg_free d) = cfg_free d)
    ∧ (∀ d : cfg_t, (cfg_free d).debug_file = DEFAULT_DEBUG_FILE
        ∧ (cfg_free d).defaults_buffer = none) := by
  refine ⟨?_, fun d => rfl, fun d => rfl, fun d => ⟨rfl, rfl⟩⟩
  simp only [cfg_init] at h
  split at h
  · next hcond =>
      injection h with h1 h2
      exact absurd (h1 ▸ hcond) hr
  · injection h with h1 h2
    rw [← h2]
    rfl

theorem cfg_init_failure_release_witness :
    cfg_init [] {} 0 [lit "conf=/nope/x"]
      = (PAM_SERVICE_ERR, (cfg_init [] {} 0 [lit "conf=/nope/x"]).2)
    ∧ PAM_SERVICE_ERR ≠ PAM_SUCCESS
    ∧ (cfg_init [] {} 0 [lit "conf=/nope/x"]).2
        = cfg_reset (cfg_init [] {} 0 [lit "conf=/nope/x"]).2 :=
  ⟨by decide, by decide,
   (cfg_init_failure_release [] {} 0 [lit "conf=/nope/x"] PAM_SERVICE_ERR
     (cfg_init [] {} 0 [lit "conf=/nope/x"]).2 (by decide) (by decide)).1⟩

theorem triseen_mono (toks toks2 : List (List Char)) (c : cfg_t)
    (hsub : ∀ a, a ∈ toks → a ∈ toks2) (h : TriSeen toks c) : TriSeen toks2 c := by
  obtain ⟨h1, h2, h3⟩ := h
  refine ⟨?_, ?_, ?_⟩
  · rcases h1 with h1 | ⟨a, ha, hp, hs⟩
    · exact Or.inl h1
    · exact Or.inr ⟨a, hsub a ha, hp, hs⟩
  · rcases h2 with h2 | ⟨a, ha, hp, hs⟩
    · exact Or.inl h2
    · exact Or.inr ⟨a, hsub a ha, hp, hs⟩
  · rcases h3 with h3 | ⟨a, ha, hp, hs⟩
    · exact Or.inl h3
    · exact Or.inr ⟨a, hsub a ha, hp, hs⟩

theorem triseen_load_arg (c : cfg_t) (arg : List Char) (toks : List (List Char))
    (h : TriSeen toks c) : TriSeen (toks ++ [arg]) (cfg_load_arg c arg) := by
  have hmono : TriSeen (toks ++ [arg]) c :=
    triseen_mono toks (toks ++ [arg]) c (fun a ha => List.mem_append_left _ ha) h
  have hself : arg ∈ toks ++ [arg] :=
    List.mem_append_right toks (List.mem_singleton.mpr rfl)
  delta cfg_load_arg cfg_load_arg_debug
  by_cases h1 : ((lit "max_devices=").isPrefixOf arg) = true
  · rw [if_pos h1]
    cases scan_u (List.drop 12 arg)
    · exact hmono
    · exact hmono
  rw [if_neg h1]
  by_cases h2 : arg = lit "manual"
  · rw [if_pos h2]; exact hmono
  rw [if_neg h2]
  by_cases h3 : arg = lit "nouserok"
  · rw [if_pos h3]; exact hmono
  rw [if_neg h3]
  by_cases h4 : arg = lit "openasuser"
  · rw [if_pos h4]; exact hmono
  rw [if_neg h4]
  by_cases h5 : arg = lit "alwaysok"
  · rw [if_pos h5]; exact hmono
  rw [if_neg h5]
  by_cases h6 : arg = lit "interactive"
  · rw [if_pos h6]; exact hmono
  rw [if_neg h6]
  by_cases h7 : arg = lit "cue"
  · rw [if_pos h7]; exact hmono
  rw [if_neg h7]
  by_cases h8 : arg = lit "nodetect"
  · rw [if_pos h8]; exact hmono
  rw [if_neg h8]
  by_cases h9 : arg = lit "expand"
  · rw [if_pos h9]; exact hmono
  rw [if_neg h9]
  by_cases h10 : ((lit "userpresence=").isPrefixOf arg) = true
  · rw [if_pos h10]
    cases hs : scan_d (List.drop 13 arg) with
    | none => exact hmono
    | some n => exact ⟨Or.inr ⟨arg, hself, h10, hs⟩, hmono.2.1, hmono.2.2⟩
  rw [if_neg h10]
  by_cases h11 : ((lit "userverification=").isPrefixOf arg) = true
  · rw [if_pos h11]
    cases hs : scan_d (List.drop 17 arg) with
    | none => exact hmono
    | some n => exact ⟨hmono.1, Or.inr ⟨arg, hself, h11, hs⟩, hmono.2.2⟩
  rw [if_neg h11]
  by_cases h12 : ((lit "pinverification=").isPrefixOf arg) = true
  · rw [if_pos h12]
    cases hs : scan_d (List.drop 16 arg) with
    | none => exact hmono
    | some n => exact ⟨hmono.1, hmono.2.1, Or.inr ⟨arg, hself, h12, hs⟩⟩
  rw [if_neg h12]
  by_cases h13 : ((lit "authfile=").isPrefixOf arg) = true
  · rw [if_pos h13]; exact hmono
  rw [if_neg h13]
  by_cases h14 : arg = lit "sshformat"
  · rw [if_pos h14]; exact hmono
  rw [if_neg h14]
  by_cases h15 : ((lit "authpending_file=").isPrefixOf arg) = true
  · rw [if_pos h15]; exact hmono
  rw [if_neg h15]
  by_cases h16 : ((lit "origin=").isPrefixOf arg) = true
  · rw [if_pos h16]; exact hmono
  rw [if_neg h16]
  by_cases h17 : ((lit "appid=").isPrefixOf arg) = true
  · rw [if_pos h17]; exact hmono
  rw [if_neg h17]
  by_cases h18 : ((lit "prompt=").isPrefixOf arg) = true
  · rw [if_pos h18]; exact hmono
  rw [if_neg h18]
  by_cases h19 : ((lit "cue_prompt=").isPrefixOf arg) = true
  · rw [if_pos h19]; exact hmono
  rw [if_neg h19]
  by_cases h20 : arg = lit "debug"
  · rw [if_pos h20]; exact hmono
  rw [if_neg h20]
  by_cases h21 : ((lit "debug_file=").isPrefixOf arg) = true
  · rw [if_pos h21]; exact hmono
  rw [if_neg h21]
  exact hmono

theorem triseen_load_arg_debug (c : cfg_t) (arg : List Char) (toks : List (List Char))
    (h : TriSeen toks c) : TriSeen (toks ++ [arg]) (cfg_load_arg_debug c arg) := by
  have hmono : TriSeen (toks ++ [arg]) c :=
    triseen_mono toks (toks ++ [arg]) c (fun a ha => List.mem_append_left _ ha) h
  delta cfg_load_arg_debug
  by_cases h1 : arg = lit "debug"
  · rw [if_pos h1]; exact hmono
  rw [if_neg h1]
  by_cases h2 : ((lit "debug_file=").isPrefixOf arg) = true
  · rw [if_pos h2]; exact hmono
  rw [if_neg h2]
  exact hmono

theorem triseen_fold_lines :
    ∀ (lines : List (List Char)) (toks : List (List Char)) (c : cfg_t),
      TriSeen toks c →
      TriSeen (toks ++ ((lines.map pack).filter (fun a => a ≠ [])))
        (lines.foldl
          (fun c line =>
            let arg := pack line
            if arg = [] then c else cfg_load_arg c arg)
          c) := by
  intro lines
  induction lines with
  | nil =>
      intro toks c h
      rw [List.map_nil, List.filter_nil, List.append_nil]
      exact h
  | cons l rest ih =>
      intro toks c h
      by_cases hp : pack l = []
      · have hf : (((l :: rest).map pack).filter (fun a => a ≠ []))
            = ((rest.map pack).filter (fun a => a ≠ [])) := by
          simp [hp]
        rw [hf, List.foldl_cons, if_pos hp]
        exact ih toks c h
      · have hf : (((l :: rest).map pack).filter (fun a => a ≠ []))
            = pack l :: ((rest.map pack).filter (fun a => a ≠ [])) := by
          simp [hp]
        rw [hf, List.foldl_cons, if_neg hp, List.append_cons]
        exact ih (toks ++ [pack l]) (cfg_load_arg c (pack l))
          (triseen_load_arg c (pack l) toks h)

theorem triseen_load_buffer (b : List Char) (toks : List (List Char)) (c : cfg_t)
    (h : TriSeen toks c) : TriSeen (toks ++ buffer_args b) (cfg_load_buffer c b) :=
  triseen_fold_lines (strtok_all '\n' b) toks c h

theorem triseen_load_defaults (fs : FS) (c : cfg_t) (p : Option (List Char))
    (toks : List (List Char)) (h : TriSeen toks c) :
    TriSeen (toks ++ defaults_args fs p) (cfg_load_defaults fs c p).2 := by
  delta cfg_load_defaults defaults_args
  cases ho : open_safely fs (p.getD CFG_DEFAULT_PATH) with
  | err e => simpa using h
  | absent => cases p <;> simpa using h
  | opened m =>
      by_cases hz : m.size = 0
      · simp only [if_pos hz]
        simpa using h
      · simp only [if_neg hz]
        rcases hsl : slurp m.content m.size with ⟨ret, ob, al⟩
        cases ret with
        | PAM_SUCCESS =>
            cases ob with
            | none => simpa using h
            | some buffer => exact triseen_load_buffer buffer toks c h
        | PAM_SERVICE_ERR => simpa using h
        | PAM_BUF_ERR => simpa using h
        | PAM_SYSTEM_ERR => simpa using h

theorem triseen_fold_debug :
    ∀ (l : List (List Char)) (toks : List (List Char)) (c : cfg_t),
      TriSeen toks c → TriSeen (toks ++ l) (l.foldl cfg_load_arg_debug c) := by
  intro l
  induction l with
  | nil =>
      intro toks c h
      rw [List.append_nil]
      exact h
  | cons a rest ih =>
      intro toks c h
      rw [List.foldl_cons, List.append_cons]
      exact ih (toks ++ [a]) (cfg_load_arg_debug c a)
        (triseen_load_arg_debug c a toks h)

theorem triseen_fold_arg :
    ∀ (l : List (List Char)) (toks : List (List Char)) (c : cfg_t),
      TriSeen toks c → TriSeen (toks ++ l) (l.foldl cfg_load_arg c) := by
  intro l
  induction l with
  | nil =>
      intro toks c h
      rw [List.append_nil]
      exact h
  | cons a rest ih =>
      intro toks c h
      rw [List.foldl_cons, List.append_cons]
      exact ih (toks ++ [a]) (cfg_load_arg c a)
        (triseen_load_arg c a toks h)

theorem triseen_full_scan (args : List (List Char)) (toks : List (List Char))
    (c : cfg_t) (h : TriSeen toks c) :
    TriSeen (toks ++ (args.filter fun a => !(lit "conf=").isPrefixOf a))
      (full_scan args c) := by
  rw [full_scan_filter_eq]
  exact triseen_fold_arg (args.filter fun a => !(lit "conf=").isPrefixOf a) toks c h

theorem triseen_init (fs : FS) (cfg : cfg_t) (fl : Int) (args : List (List Char)) :
    TriSeen (init_args fs args) (cfg_init fs cfg fl args).2 := by
  have hsnd : (early_scan args (cfg_reset cfg)).2 = lastConf args := by
    rw [early_scan, early_scan_snd_eq args (cfg_reset cfg) none]
    cases lastConf args <;> rfl
  have h1 : TriSeen (args.filter fun a => !(lit "conf=").isPrefixOf a)
      (early_scan args (cfg_reset cfg)).1 := by
    rw [early_scan, early_scan_fst_eq args (cfg_reset cfg) none]
    have h0 := triseen_fold_debug (args.filter fun a => !(lit "conf=").isPrefixOf a)
      [] (cfg_reset cfg) ⟨Or.inl rfl, Or.inl rfl, Or.inl rfl⟩
    simpa using h0
  have h2 : TriSeen ((args.filter fun a => !(lit "conf=").isPrefixOf a)
        ++ defaults_args fs (lastConf args))
      (cfg_load_defaults fs (early_scan args (cfg_reset cfg)).1
        (early_scan args (cfg_reset cfg)).2).2 := by
    rw [hsnd]
    exact triseen_load_defaults fs (early_scan args (cfg_reset cfg)).1
      (lastConf args) (args.filter fun a => !(lit "conf=").isPrefixOf a) h1
  delta cfg_init
  by_cases hc :
      (cfg_load_defaults fs
        (early_scan args (cfg_reset cfg)).1
        (early_scan args (cfg_reset cfg)).2).1 = PAM_SUCCESS
  · rw [if_pos hc]
    exact triseen_full_scan args
      ((args.filter fun a => !(lit "conf=").isPrefixOf a)
        ++ defaults_args fs (lastConf args))
      (cfg_load_defaults fs (early_scan args (cfg_reset cfg)).1
        (early_scan args (cfg_reset cfg)).2).2 h2
  · rw [if_neg hc]
    exact ⟨Or.inl rfl, Or.inl rfl, Or.inl rfl⟩

/-- Claim C9: every record producible by the operations of cfg.c — reset,
either merger, buffer load, file load, full initialization, release — has
each tri-state field equal to the sentinel −1 installed at every reset, or to
a value explicitly assigned by one of the recognized tokens actually applied
to that record: some applied token carries that field's key and its value
converts under the signed numeric conversion to exactly the observed
value. -/
theorem tri_state_values (c : cfg_t) (toks : List (List Char))
    (h : ReachT c toks) : TriSeen toks c := by
  induction h with
  | reset d => exact ⟨Or.inl rfl, Or.inl rfl, Or.inl rfl⟩
  | load_arg d tk arg _ ih => exact triseen_load_arg d arg tk ih
  | load_arg_debug d tk arg _ ih => exact triseen_load_arg_debug d arg tk ih
  | load_buffer d tk b _ ih => exact triseen_load_buffer b tk d ih
  | load_defaults fs d tk p _ ih => exact triseen_load_defaults fs d p tk ih
  | init fs d fl args => exact triseen_init fs d fl args
  | free d tk _ _ => exact ⟨Or.inl rfl, Or.inl rfl, Or.inl rfl⟩

theorem openat_dir_ok (fs : FS) (q : List (List Char)) (m : Meta)
    (h : openat_dir fs q = OpenRes.ok m) :
    fsFind fs q = some m ∧ m.ftype = FType.dir := by
  unfold openat_dir at h
  split at h
  · exact absurd h (by simp)
  · next m' hfind =>
      split at h
      · next hft =>
          injection h with he
          subst he
          exact ⟨hfind, hft⟩
      · exact absurd h (by simp)

theorem openat_nofollow_ok (fs : FS) (q : List (List Char)) (m : Meta)
    (h : openat_nofollow fs q = OpenRes.ok m) :
    fsFind fs q = some m := by
  unfold openat_nofollow at h
  split at h
  · exact absurd h (by simp)
  · next m' hfind =>
      split at h
      · exact absurd h (by simp)
      · injection h with he
        subst he
        exact hfind

theorem walk_dirs_opened (fs : FS) :
    ∀ (rest done : List (List Char)) (p : List Char) (m : Meta),
      walk_dirs fs done p rest = SORes.opened m →
      (∀ i, 1 ≤ i → i ≤ rest.length →
        ∃ md, fsFind fs (done ++ (p :: rest).take i) = some md ∧ trustDir md)
      ∧ fsFind fs (done ++ p :: rest) = some m ∧ trustFile m := by
  intro rest
  induction rest with
  | nil =>
      intro done p m h
      simp only [walk_dirs] at h
      split at h
      · exact absurd h (by simp)
      · exact absurd h (by simp)
      · next m' hopen =>
          split at h
          · next hcond =>
              injection h with he
              subst he
              refine ⟨fun i h1 h2 => absurd (Nat.le_trans h1 h2) (by simp), ?_, hcond⟩
              exact openat_nofollow_ok fs (done ++ [p]) m' hopen
          · exact absurd h (by simp)
  | cons cnext rest' ih =>
      intro done p m h
      simp only [walk_dirs] at h
      split at h
      · exact absurd h (by simp)
      · exact absurd h (by simp)
      · next md hopen =>
          split at h
          · next hcond =>
              obtain ⟨ihA, ihB, ihC⟩ := ih (done ++ [p]) cnext m h
              obtain ⟨hfind, _⟩ := openat_dir_ok fs (done ++ [p]) md hopen
              refine ⟨?_, ?_, ihC⟩
              · intro i h1 h2
                simp only [List.length_cons] at h2
                rcases i with _ | i
                · exact absurd h1 (by omega)
                rcases i with _ | j
                · exact ⟨md, hfind, hcond⟩
                · obtain ⟨md', hf, ht⟩ := ihA (j + 1) (by omega) (by omega)
                  refine ⟨md', ?_, ht⟩
                  rw [List.take_succ_cons, List.append_cons]
                  exact hf
              · rw [List.append_cons]
                exact ihB
          · exact absurd h (by simp)

theorem walk_dirs_err (fs : FS) :
    ∀ (rest done : List (List Char)) (p : List Char),
      (∀ i, 1 ≤ i → i ≤ rest.length →
        ∃ md, fsFind fs (done ++ (p :: rest).take i) = some md) →
      (∃ i md, 1 ≤ i ∧ i ≤ rest.length
        ∧ fsFind fs (done ++ (p :: rest).take i) = some md
        ∧ (md.grpW = true ∨ md.othW = true)) →
      walk_dirs fs done p rest = SORes.err PAM_SERVICE_ERR := by
  intro rest
  induction rest with
  | nil =>
      intro done p _ hw
      obtain ⟨i, md, h1, h2, _, _⟩ := hw
      exact absurd (Nat.le_trans h1 h2) (by simp)
  | cons cnext rest' ih =>
      intro done p hex hw
      obtain ⟨md0, hfind0⟩ :=
        hex 1 (Nat.le_refl 1) (by simp only [List.length_cons]; omega)
      have hfind0' : fsFind fs (done ++ [p]) = some md0 := hfind0
      simp only [walk_dirs]
      have hod : openat_dir fs (done ++ [p])
          = (if md0.ftype = FType.dir then OpenRes.ok md0 else OpenRes.eother) := by
        unfold openat_dir
        rw [hfind0']
      rw [hod]
      by_cases hdir : md0.ftype = FType.dir
      · rw [if_pos hdir]
        show (if md0.uid = 0 ∧ (md0.ftype = FType.dir ∨ md0.ftype = FType.symlink)
                ∧ md0.grpW = false ∧ md0.othW = false
              then walk_dirs fs (done ++ [p]) cnext rest'
              else SORes.err PAM_SERVICE_ERR) = SORes.err PAM_SERVICE_ERR
        by_cases htr : md0.uid = 0 ∧ (md0.ftype = FType.dir ∨ md0.ftype = FType.symlink)
            ∧ md0.grpW = false ∧ md0.othW = false
        · rw [if_pos htr]
          apply ih (done ++ [p]) cnext
          · intro i h1 h2
            obtain ⟨md, hf⟩ :=
              hex (i + 1) (by omega) (by simp only [List.length_cons]; omega)
            refine ⟨md, ?_⟩
            rw [← List.append_cons, ← List.take_succ_cons]
            exact hf
          · obtain ⟨i, md, hi1, hi2, hf, hwb⟩ := hw
            rcases i with _ | i
            · exact absurd hi1 (by omega)
            rcases i with _ | j
            · have he := hfind0.symm.trans hf
              injection he with he'
              subst he'
              rcases hwb with hb | hb
              · rw [htr.2.2.1] at hb
                exact absurd hb (by simp)
              · rw [htr.2.2.2] at hb
                exact absurd hb (by simp)
            · simp only [List.length_cons] at hi2
              refine ⟨j + 1, md, by omega, by omega, ?_, hwb⟩
              rw [← List.append_cons, ← List.take_succ_cons]
              exact hf
        · rw [if_neg htr]
      · rw [if_neg hdir]

/-- Claim C1: `open_safely` opens the file only when every walked path
element is trusted: success implies each proper ancestor prefix resolves to a
root-owned, non-group/other-writable directory and the target to a
root-owned, non-writable regular file; conversely, when the ancestors all
exist and any of them is group- or other-writable, the operation fails with
the security error regardless of the target's own metadata. -/
theorem open_safely_trust_walk (fs : FS) (path : List Char) :
    (∀ m, open_safely fs path = SORes.opened m →
      (∀ i, 1 ≤ i → i < (components path).length →
        ∃ md, fsFind fs ((components path).take i) = some md ∧ trustDir md)
      ∧ fsFind fs (components path) = some m ∧ trustFile m)
    ∧ ((∀ i, 1 ≤ i → i < (components path).length →
          ∃ md, fsFind fs ((components path).take i) = some md) →
       (∃ i md, 1 ≤ i ∧ i < (components path).length
          ∧ fsFind fs ((components path).take i) = some md
          ∧ (md.grpW = true ∨ md.othW = true)) →
       open_safely fs path = SORes.err PAM_SERVICE_ERR) := by
  unfold open_safely components
  by_cases hv : (path = [] ∨ path.head? ≠ some '/' ∨ path.getLast? = some '/')
  · rw [if_pos hv]
    constructor
    · intro m hm
      exact absurd hm (by simp)
    · intro _ _
      rfl
  rw [if_neg hv]
  cases hc : strtok_all '/' path with
  | nil =>
      constructor
      · intro m hm
        exact absurd hm (by simp)
      · rintro _ ⟨i, md, h1, h2, _, _⟩
        simp only [List.length_nil] at h2
        exact absurd h1 (by omega)
  | cons p rest =>
      constructor
      · intro m hm
        obtain ⟨hA, hB, hC⟩ := walk_dirs_opened fs rest [] p m hm
        refine ⟨?_, ?_, hC⟩
        · intro i h1 h2
          simp only [List.length_cons] at h2
          obtain ⟨md, hf, ht⟩ := hA i h1 (by omega)
          exact ⟨md, by simpa using hf, ht⟩
        · simpa using hB
      · intro hex hw
        apply walk_dirs_err fs rest [] p
        · intro i h1 h2
          obtain ⟨md, hf⟩ := hex i h1 (by simp only [List.length_cons]; omega)
          exact ⟨md, by simpa using hf⟩
        · obtain ⟨i, md, h1, h2, hf, hwb⟩ := hw
          simp only [List.length_cons] at h2
          exact ⟨i, md, h1, by omega, by simpa using hf, hwb⟩

theorem open_safely_trust_walk_witness :
    open_safely demoFS CFG_DEFAULT_PATH
      = SORes.opened (fileMeta "debug\nmax_devices=5\n")
    ∧ (fsFind demoFS (components CFG_DEFAULT_PATH)
        = some (fileMeta "debug\nmax_devices=5\n")
       ∧ trustFile (fileMeta "debug\nmax_devices=5\n"))
    ∧ (∀ i, 1 ≤ i → i < (components (lit "/a/b")).length →
        ∃ md, fsFind badFS ((components (lit "/a/b")).take i) = some md)
    ∧ (∃ i md, 1 ≤ i ∧ i < (components (lit "/a/b")).length
        ∧ fsFind badFS ((components (lit "/a/b")).take i) = some md
        ∧ (md.grpW = true ∨ md.othW = true))
    ∧ open_safely badFS (lit "/a/b") = SORes.err PAM_SERVICE_ERR := by
  have hex : ∀ i, 1 ≤ i → i < (components (lit "/a/b")).length →
      ∃ md, fsFind badFS ((components (lit "/a/b")).take i) = some md := by
    intro i h1 h2
    have hi : i = 1 := by
      have : (components (lit "/a/b")).length = 2 := by decide
      omega
    subst hi
    exact ⟨{ uid := 0, ftype := FType.dir, grpW := true, othW := false,
             size := 0, content := [] }, by decide⟩
  have hw : ∃ i md, 1 ≤ i ∧ i < (components (lit "/a/b")).length
      ∧ fsFind badFS ((components (lit "/a/b")).take i) = some md
      ∧ (md.grpW = true ∨ md.othW = true) :=
    ⟨1, { uid := 0, ftype := FType.dir, grpW := true, othW := false,
          size := 0, content := [] },
     Nat.le_refl 1, by decide, by decide, Or.inl rfl⟩
  have hop : open_safely demoFS CFG_DEFAULT_PATH
      = SORes.opened (fileMeta "debug\nmax_devices=5\n") := by decide
  exact ⟨hop,
    ((open_safely_trust_walk demoFS CFG_DEFAULT_PATH).1
      (fileMeta "debug\nmax_devices=5\n") hop).2,
    hex, hw,
    (open_safely_trust_walk badFS (lit "/a/b")).2 hex hw⟩

theorem tri_state_values_witness :
    TriSeen [] (cfg_reset {})
    ∧ TriSeen (init_args demoFS [lit "userpresence=1"])
        (cfg_init demoFS {} 0 [lit "userpresence=1"]).2 :=
  ⟨tri_state_values (cfg_reset {}) [] (ReachT.reset {}),
   tri_state_values (cfg_init demoFS {} 0 [lit "userpresence=1"]).2
     (init_args demoFS [lit "userpresence=1"])
     (ReachT.init demoFS {} 0 [lit "userpresence=1"])⟩
